import Mathlib

/-!
Shallow embedding of the core of `ai-cpp-tester` (files `src/dsl.py` and
`src/search.py`), together with proofs settling the frozen claims about its
specification.

Conventions of the embedding:
* Python strings are `String`; `Optional[str]` (and a Python variable that
  may hold `None`) is `Option String`.
* A Python `dict` used as an insertion-ordered map is an association list
  `List (String × α)`; `dictInsert` mirrors `d[k] = v` (overwrite in place,
  else append) and `lookupVar` mirrors `d.get(k)`.
* A raised `DSLValidationError` is `VErr.dslError msg`; a Python `KeyError`
  (subscript of a missing key) is `VErr.keyError`; a Python `AttributeError`
  (attribute access on an object that lacks it) is `VErr.attrError`.
* Validators mutate a `DSLContext` in place in the source; here each returns
  `Option VErr × DSLContext` — the error raised (if any) and the state at the
  moment control leaves the function.
* Python floats of the search scoring pipeline are embedded as `ℚ` (the
  pipeline is ring arithmetic plus `round(x, 3)`, both exact over `ℚ`);
  the cosine-similarity function, whose definition divides by a square root,
  is embedded over `ℝ`.
-/

/-! ## Symbol records (the shapes `JsonASTProvider` reads from `ast.json`) -/

/-- A `{name, type}` parameter record of a method or function. -/
structure ParamRec where
  name : String
  type : String
deriving DecidableEq

/-- A method / constructor / free-function record. `return_type` is nullable
in the JSON (constructors carry `null`), hence `Option String`. -/
structure MethodSym where
  kind : String
  name : String
  fqn : String
  params : List ParamRec
  return_type : Option String
deriving DecidableEq

/-- A `{name, type}` field record of a class. -/
structure FieldRec where
  name : String
  type : String
deriving DecidableEq

/-- A class record: `kind` is the kind string stored in the index
(the repository's AST producer emits "class_decl" / "struct_decl" for
classes and structs, the data model's kind "type"). -/
structure ClassRec where
  kind : String
  name : String
  fqn : String
  methods : List MethodSym
  fields : List FieldRec
deriving DecidableEq

/-- One entry of the flattened symbol table: either a class record or a
method/function record (`_build_symbol_index` stores both shapes). -/
inductive SymRec where
  | cls (c : ClassRec)
  | fn (m : MethodSym)
deriving DecidableEq

def SymRec.kind : SymRec → String
  | .cls c => c.kind
  | .fn m => m.kind

def SymRec.fqn : SymRec → String
  | .cls c => c.fqn
  | .fn m => m.fqn

/-- `sym["methods"]` — direct subscript, `KeyError` when the record is not a
class record (method records carry no "methods" key). -/
def SymRec.methodsKey : SymRec → Option (List MethodSym)
  | .cls c => some c.methods
  | .fn _ => none

/-- `sym.get("methods", [])` — subscript with default. -/
def SymRec.methodsD : SymRec → List MethodSym
  | .cls c => c.methods
  | .fn _ => []

/-- `sym.get("fields", [])` — subscript with default. -/
def SymRec.fieldsD : SymRec → List FieldRec
  | .cls c => c.fields
  | .fn _ => []

/-- One file entry of the AST index: `{classes: [...], functions: [...]}`. -/
structure FileRec where
  classes : List ClassRec
  functions : List MethodSym
deriving DecidableEq

/-- The AST index, `dict` values in iteration order. -/
abbrev AstIndex := List FileRec

/-! ## Python dict primitives over association lists -/

/-- `d.get(k)`: the value at the first matching key, else `none`. -/
def lookupVar {α : Type} : List (String × α) → String → Option α
  | [], _ => none
  | (k, v) :: rest, x => if x = k then some v else lookupVar rest x

/-- `d[k] = v`: overwrite the value in place when the key is present,
else append the new pair (Python dicts keep insertion order). -/
def dictInsert {α : Type} (m : List (String × α)) (k : String) (v : α) :
    List (String × α) :=
  if (lookupVar m k).isSome then
    m.map (fun p => if p.1 = k then (k, v) else p)
  else
    m ++ [(k, v)]

deriving instance DecidableEq for Except

/-! ## The DSL error channel -/

/-- The exceptions the validator code can raise: the structured
`DSLValidationError`, and the two generic Python exceptions reachable in
`dsl.py` (`KeyError` from a missing dict key, `AttributeError` from an
attribute the object lacks). -/
inductive VErr where
  | dslError (msg : String)
  | keyError (key : String)
  | attrError (attr : String)
deriving DecidableEq

/-! ## The symbol table (`JsonASTProvider`) -/

abbrev SymTable := List (String × SymRec)

/-- `_build_symbol_index`: flatten the AST index into one fqn → record dict;
classes are inserted, then each class's methods, then the file's functions. -/
def build_symbol_index (idx : AstIndex) : SymTable :=
  idx.foldl
    (fun m file =>
      let m := file.classes.foldl
        (fun m c =>
          let m := dictInsert m c.fqn (.cls c)
          c.methods.foldl (fun m meth => dictInsert m meth.fqn (.fn meth)) m)
        m
      file.functions.foldl (fun m f => dictInsert m f.fqn (.fn f)) m)
    []

/-- The kind strings of the data model's kind "type" (class or struct). -/
def isTypeKind (k : String) : Bool :=
  k == "class_decl" || k == "struct_decl"

/-- `JsonASTProvider.get_class`: the looked-up symbol only when its kind is a
class/struct kind, else `None`. -/
def get_class (symbols : SymTable) (fqn : String) : Option SymRec :=
  match lookupVar symbols fqn with
  | some s => if isTypeKind s.kind then some s else none
  | none => none

/-- `JsonASTProvider.get_constructors`: `UnknownType` when `get_class` finds
nothing; otherwise the class's methods of kind "constructor" (the bare
`cls["methods"]` subscript is a `KeyError` on a record with no methods key). -/
def get_constructors (symbols : SymTable) (fqn : String) :
    Except VErr (List MethodSym) :=
  match get_class symbols fqn with
  | none => .error (.dslError ("Unknown type '" ++ fqn ++ "'"))
  | some cls =>
    match cls.methodsKey with
    | none => .error (.keyError "methods")
    | some ms => .ok (ms.filter (fun m => m.kind == "constructor"))

/-- `JsonASTProvider.find_method`: first method of the class with the given
fqn, `None` when the class or the method is absent. -/
def find_method (symbols : SymTable) (class_fqn method_fqn : String) :
    Option MethodSym :=
  match get_class symbols class_fqn with
  | none => none
  | some cls => cls.methodsD.find? (fun m => m.fqn == method_fqn)

/-! ## Steps and plans -/

structure CreateStep where
  id : String
  type : String
  args : List String
deriving DecidableEq

structure CallStep where
  target : String
  method : String
  args : List String
  result : Option String
deriving DecidableEq

structure GetStep where
  target : String
  field : String
  result : String
deriving DecidableEq

/-- An `assert` operand: a string, an integer literal, or Python `None`. -/
inductive AVal where
  | str (s : String)
  | int (n : Int)
  | none
deriving DecidableEq

structure AssertExpr where
  op : String
  left : AVal
  right : AVal
deriving DecidableEq

structure AssertStep where
  expr : AssertExpr
deriving DecidableEq

structure ExpectFailStep where
  step : Int
deriving DecidableEq

inductive Step where
  | create (s : CreateStep)
  | call (s : CallStep)
  | get (s : GetStep)
  | assertS (s : AssertStep)
  | expectFail (s : ExpectFailStep)
deriving DecidableEq

/-- The `op` tag each step constructor fixes. -/
def Step.op : Step → String
  | .create _ => "create"
  | .call _ => "call"
  | .get _ => "get"
  | .assertS _ => "assert"
  | .expectFail _ => "expect_fail"

structure TestPlan where
  test : String
  steps : List Step
deriving DecidableEq

/-! ## Parsing (`parse_step`) -/

/-- A raw step description: the recognized keys of the JSON object, `none`
for an absent key. -/
structure RawStep where
  op : Option String := none
  id : Option String := none
  type : Option String := none
  args : Option (List String) := none
  target : Option String := none
  method : Option String := none
  field : Option String := none
  result : Option String := none
  expr : Option AssertExpr := none
  step : Option Int := none
deriving DecidableEq

/-- `kw["k"]`: the value, or a Python `KeyError` naming the missing key. -/
def reqKey {α : Type} (v : Option α) (k : String) : Except VErr α :=
  match v with
  | some x => .ok x
  | none => .error (.keyError k)

/-- How a Python f-string prints an `Optional[str]`. -/
def pyShow : Option String → String
  | some s => s
  | none => "None"

/-- `parse_step`: dispatch on `op`; an unrecognized (or absent) op is a
`DSLValidationError`; each variant constructor subscripts its required keys
directly, so an absent required key raises a generic `KeyError`, and `args` /
`result` use `.get` defaults. The required keys are read in the order the
`__init__` bodies read them. -/
def parse_step (data : RawStep) : Except VErr Step :=
  match data.op with
  | some "create" => do
    let i ← reqKey data.id "id"
    let t ← reqKey data.type "type"
    .ok (.create ⟨i, t, data.args.getD []⟩)
  | some "call" => do
    let tgt ← reqKey data.target "target"
    let m ← reqKey data.method "method"
    .ok (.call ⟨tgt, m, data.args.getD [], data.result⟩)
  | some "get" => do
    let tgt ← reqKey data.target "target"
    let f ← reqKey data.field "field"
    let r ← reqKey data.result "result"
    .ok (.get ⟨tgt, f, r⟩)
  | some "assert" => do
    let e ← reqKey data.expr "expr"
    .ok (.assertS ⟨e⟩)
  | some "expect_fail" => do
    let s ← reqKey data.step "step"
    .ok (.expectFail ⟨s⟩)
  | _ => .error (.dslError ("Unknown op '" ++ pyShow data.op ++ "'"))

/-! ## The validation context and type inference -/

/-- `DSLContext`: the symbol provider plus the variable → type dict.
The source also *writes* to an attribute `values` in `validate_get`, but the
class declares no such attribute, so that access raises `AttributeError`
(modelled at the use site). Stored types are `Option String` because a
`call` with a `result` can store a nullable `return_type`. -/
structure DSLContext where
  ast : SymTable
  vars : List (String × Option String)
deriving DecidableEq

/-- `ctx.vars.get(k)` flattened the way Python's `.get` behaves:
an absent key and a stored `None` are indistinguishable. -/
def pyGetVar (ctx : DSLContext) (k : String) : Option String :=
  (lookupVar ctx.vars k).join

/-- `str.isdigit` restricted to ASCII: nonempty and all decimal digits. -/
def pyIsdigit (s : String) : Bool :=
  !s.toList.isEmpty && s.toList.all Char.isDigit

/-- `s.replace(".", "", 1)`: drop the first occurrence of a character. -/
def removeFirst (c : Char) : List Char → List Char
  | [] => []
  | x :: xs => if x = c then xs else x :: removeFirst c xs

/-- `infer_arg_type`: an already-bound name keeps its binding (whatever was
stored, possibly `None`); else digit strings are "int"; else strings that
are digits after removing one dot are "double"; else the two boolean
literals are "bool"; else the string-literal type. The source's trailing
`raise` sits behind `isinstance(arg, str)`, identically true here because
the argument is a string, so inference is total. -/
def infer_arg_type (arg : String) (ctx : DSLContext) : Option String :=
  match lookupVar ctx.vars arg with
  | some t => t
  | none =>
    if pyIsdigit arg then some "int"
    else if pyIsdigit (String.mk (removeFirst '.' arg.toList)) then some "double"
    else if arg = "true" || arg = "false" then some "bool"
    else some "std::string"

/-- `is_type_compatible`: exact equality (`None` equals no type string). -/
def is_type_compatible (actual : Option String) (expected : String) : Bool :=
  actual == some expected

/-- The per-index loop of `check_args` over the zipped (param, arg) pairs. -/
def check_args_loop (ctx : DSLContext) (whr : String) :
    List (ParamRec × String) → Nat → Except VErr Unit
  | [], _ => .ok ()
  | (p, a) :: rest, i =>
    let actual := infer_arg_type a ctx
    if is_type_compatible actual p.type then
      check_args_loop ctx whr rest (i + 1)
    else
      .error (.dslError (whr ++ ": arg " ++ toString i ++ " type mismatch: expected "
        ++ p.type ++ ", got " ++ pyShow actual))

/-- `check_args`: arity first, then each argument's inferred type must
exactly equal the declared parameter type. -/
def check_args (expected_params : List ParamRec) (actual_args : List String)
    (ctx : DSLContext) (whr : String) : Except VErr Unit :=
  if expected_params.length ≠ actual_args.length then
    .error (.dslError (whr ++ ": expected " ++ toString expected_params.length
      ++ " args, got " ++ toString actual_args.length))
  else
    check_args_loop ctx whr (expected_params.zip actual_args) 0

/-! ## Step validators -/

/-- `ctx.vars[k] = v`. -/
def setVar (ctx : DSLContext) (k : String) (v : Option String) : DSLContext :=
  { ctx with vars := dictInsert ctx.vars k v }

/-- The constructor loop of `validate_create`: first constructor whose
argument check passes wins and binds `id ↦ type`; a failing check is
swallowed and the next constructor is tried. -/
def try_ctors (step : CreateStep) (ctx : DSLContext) :
    List MethodSym → Option VErr × DSLContext
  | [] => (some (.dslError ("No matching constructor for '" ++ step.type ++ "'")), ctx)
  | ctor :: rest =>
    match check_args ctor.params step.args ctx ("constructor " ++ step.type) with
    | .ok _ => (none, setVar ctx step.id (some step.type))
    | .error _ => try_ctors step ctx rest

def validate_create (step : CreateStep) (ctx : DSLContext) :
    Option VErr × DSLContext :=
  match get_constructors ctx.ast step.type with
  | .error e => (some e, ctx)
  | .ok ctors => try_ctors step ctx ctors

/-- `validate_call`. `if not obj_type` is a falsiness test: an unbound
target, a binding holding `None`, and a binding holding `""` all fail alike.
`if step.result` likewise skips the binding for `None` and for `""`. -/
def validate_call (step : CallStep) (ctx : DSLContext) :
    Option VErr × DSLContext :=
  match pyGetVar ctx step.target with
  | none => (some (.dslError ("Unknown variable '" ++ step.target ++ "'")), ctx)
  | some obj_type =>
    if obj_type = "" then
      (some (.dslError ("Unknown variable '" ++ step.target ++ "'")), ctx)
    else
      match find_method ctx.ast obj_type step.method with
      | none =>
        (some (.dslError ("Method '" ++ step.method ++ "' not found in '"
          ++ obj_type ++ "'")), ctx)
      | some method =>
        match check_args method.params step.args ctx
            (obj_type ++ "::" ++ step.method) with
        | .error e => (some e, ctx)
        | .ok _ =>
          match step.result with
          | some r =>
            if r = "" then (none, ctx)
            else (none, setVar ctx r method.return_type)
          | none => (none, ctx)

/-- `validate_get`. After the three checks pass, the source executes
`ctx.values[step.result] = None`; `DSLContext` declares no attribute
`values`, so the success path raises `AttributeError` and binds nothing. -/
def validate_get (step : GetStep) (ctx : DSLContext) :
    Option VErr × DSLContext :=
  if (lookupVar ctx.vars step.target).isNone then
    (some (.dslError ("Unknown target object '" ++ step.target ++ "'")), ctx)
  else
    match
      match (lookupVar ctx.vars step.target).join with
      | some fqn => get_class ctx.ast fqn
      | none => none
    with
    | none => (some (.dslError "Invalid target type"), ctx)
    | some cls =>
      if !(cls.fieldsD.any (fun f => f.name == step.field)) then
        (some (.dslError ("Field '" ++ step.field ++ "' not found in '"
          ++ cls.fqn ++ "'")), ctx)
      else
        (some (.attrError "values"), ctx)

/-- One side of an `assert` expression: a `$`-prefixed string must name a
bound variable. -/
def check_assert_side (ctx : DSLContext) (side : AVal) : Option VErr :=
  match side with
  | .str s =>
    if s.startsWith "$" then
      if (lookupVar ctx.vars (s.drop 1)).isNone then
        some (.dslError ("Unknown value reference '" ++ s ++ "'"))
      else Option.none
    else Option.none
  | _ => Option.none

def validate_assert (step : AssertStep) (ctx : DSLContext) :
    Option VErr × DSLContext :=
  match check_assert_side ctx step.expr.left with
  | some e => (some e, ctx)
  | none => (check_assert_side ctx step.expr.right, ctx)

def validate_expect_fail (step : ExpectFailStep) (ctx : DSLContext) :
    Option VErr × DSLContext :=
  if step.step < 0 then
    (some (.dslError "step index must be >= 0"), ctx)
  else (none, ctx)

/-- `validate_step`: dispatch on the step variant (the parser produces
exactly these five, so the source's trailing else branch is unreachable). -/
def validate_step (step : Step) (ctx : DSLContext) : Option VErr × DSLContext :=
  match step with
  | .create s => validate_create s ctx
  | .call s => validate_call s ctx
  | .get s => validate_get s ctx
  | .assertS s => validate_assert s ctx
  | .expectFail s => validate_expect_fail s ctx

/-- The loop of `validate_plan`: steps strictly in order; the first raised
`DSLValidationError` is re-raised annotated with the 0-based step index and
the step's op name and the loop stops; any other exception propagates as-is
(only `DSLValidationError` is caught at the step boundary). -/
def validate_steps : List Step → Nat → DSLContext → Option VErr
  | [], _, _ => none
  | s :: rest, idx, ctx =>
    match validate_step s ctx with
    | (none, ctx2) => validate_steps rest (idx + 1) ctx2
    | (some (.dslError msg), _) =>
      some (.dslError ("Step " ++ toString idx ++ " (" ++ s.op ++ "): " ++ msg))
    | (some e, _) => some e

/-- `validate_plan`: a fresh context with an empty variable environment. -/
def validate_plan (plan : TestPlan) (ast : SymTable) : Option VErr :=
  validate_steps plan.steps 0 ⟨ast, []⟩

/-! ## The hybrid search engine (`src/search.py`)

Scores are embedded as `ℚ`. The semantic channel calls the external
embedding provider, so the fusion pipeline is parametrized by `semanticMap`,
the fqn → similarity map `raw_semantic_search` hands to the fusion step. -/

/-- A character the token regex accepts as a token start (`[A-Za-z_]`). -/
def isWordStart (c : Char) : Bool :=
  c.isAlpha || c = '_'

/-- A character the token regex accepts inside a token (`[A-Za-z_0-9]`). -/
def isWordChar (c : Char) : Bool :=
  c.isAlpha || c.isDigit || c = '_'

/-- Left-to-right scan equal to `re.findall` of the token regex: a token
starts at a word-start character and extends over word characters; a digit
outside a token starts nothing. The accumulator holds the reversed current
token. -/
def tokenizeAux : Option (List Char) → List Char → List (List Char)
  | some w, [] => [w.reverse]
  | none, [] => []
  | some w, c :: t =>
    if isWordChar c then tokenizeAux (some (c :: w)) t
    else w.reverse :: tokenizeAux none t
  | none, c :: t =>
    if isWordStart c then tokenizeAux (some [c]) t
    else tokenizeAux none t

/-- `tokenize_query`: the word-like tokens of the query, lowercased. -/
def tokenize_query (text : String) : List String :=
  (tokenizeAux none text.toList).map (fun w => String.mk (w.map Char.toLower))

/-- Python's `needle in haystack` on strings: substring containment. -/
def strContainsL : List Char → List Char → Bool
  | [], need => need.isEmpty
  | c :: t, need => need.isPrefixOf (c :: t) || strContainsL t need

def strContains (hay need : String) : Bool :=
  strContainsL hay.toList need.toList

/-- `name_match_score`: the fraction of query tokens that occur as
substrings of the lowercased `"name fqn"` string; 0 when no token does. -/
def name_match_score (name fqn : String) (tokens : List String) : ℚ :=
  let haystack := (name ++ " " ++ fqn).toLower
  let matchCount := (tokens.filter (fun t => strContains haystack t)).length
  if matchCount = 0 then 0 else (matchCount : ℚ) / (tokens.length : ℚ)

/-- One accumulated fusion record: the per-fqn `{fqn, kind, semantic, name}`
dict of `semantic_search`. -/
structure RRec where
  fqn : String
  kind : String
  semantic : ℚ
  name : ℚ
deriving DecidableEq

/-- The name-channel update for one symbol: when its lexical score is
positive, `setdefault` the record and raise its `name` score to the max. -/
def addNameScore (m : List (String × RRec)) (fqn kind : String) (score : ℚ) :
    List (String × RRec) :=
  if 0 < score then
    match lookupVar m fqn with
    | some r => dictInsert m fqn { r with name := max r.name score }
    | none => m ++ [(fqn, ⟨fqn, kind, 0, max 0 score⟩)]
  else m

/-- The name-based loop of `semantic_search`: every class, its methods, and
every free function of the AST index, in iteration order. -/
def nameChannel (idx : AstIndex) (tokens : List String) :
    List (String × RRec) :=
  idx.foldl
    (fun m file =>
      let m := file.classes.foldl
        (fun m cls =>
          let m := addNameScore m cls.fqn cls.kind
            (name_match_score cls.name cls.fqn tokens)
          cls.methods.foldl
            (fun m meth => addNameScore m meth.fqn meth.kind
              (name_match_score meth.name meth.fqn tokens)) m)
        m
      file.functions.foldl
        (fun m f => addNameScore m f.fqn f.kind
          (name_match_score f.name f.fqn tokens)) m)
    []

/-- The semantic-merge update for one fqn of the semantic map: `setdefault`
a record of kind "unknown" and overwrite its `semantic` score. -/
def addSemScore (m : List (String × RRec)) (fqn : String) (score : ℚ) :
    List (String × RRec) :=
  match lookupVar m fqn with
  | some r => dictInsert m fqn { r with semantic := score }
  | none => m ++ [(fqn, ⟨fqn, "unknown", score, 0⟩)]

/-- The fusion table: the name channel over the AST index, then the
semantic map merged over it. -/
def fusionResults (idx : AstIndex) (semanticMap : List (String × ℚ))
    (tokens : List String) : List (String × RRec) :=
  semanticMap.foldl (fun m p => addSemScore m p.1 p.2) (nameChannel idx tokens)

/-- Round to the nearest integer, ties to the even integer (Python's
`round` on a decimal-exact value). -/
def roundHalfEven (q : ℚ) : ℤ :=
  let f := ⌊q⌋
  let r := q - (f : ℚ)
  if r < 1 / 2 then f
  else if 1 / 2 < r then f + 1
  else if f % 2 = 0 then f else f + 1

/-- `round(x, 3)`: round to three decimal places. -/
def round3 (q : ℚ) : ℚ :=
  (roundHalfEven (q * 1000) : ℚ) / 1000

/-- One returned search hit. -/
structure Hit where
  fqn : String
  kind : String
  score : ℚ
  sources : List String
deriving DecidableEq

/-- The final-score step for one fusion record: fuse with weights 0.7 / 0.3,
drop the record when the exact fused score is 0, else emit a hit whose
`score` is the fused score rounded to three decimals and whose `sources`
names the channels with strictly positive scores. -/
def fuseRecord (r : RRec) : Option Hit :=
  let score := (7 / 10 : ℚ) * r.semantic + (3 / 10 : ℚ) * r.name
  if score = 0 then Option.none
  else some ⟨r.fqn, r.kind,
    round3 score,
    (if 0 < r.semantic then ["semantic"] else [])
      ++ (if 0 < r.name then ["name"] else [])⟩

/-- The `final` list of `semantic_search` before ranking. -/
def finalHits (idx : AstIndex) (semanticMap : List (String × ℚ))
    (tokens : List String) : List Hit :=
  (fusionResults idx semanticMap tokens).filterMap (fun p => fuseRecord p.2)

/-- Insert a hit into a list sorted by non-increasing score, behind every
earlier hit of greater-or-equal score (a stable descending sort step). -/
def insertSorted (h : Hit) : List Hit → List Hit
  | [] => [h]
  | x :: t => if x.score < h.score then h :: x :: t else x :: insertSorted h t

/-- `final.sort(key=score, reverse=True)`: a stable descending sort (each
element is inserted behind the already-placed elements of equal score). -/
def sortDesc (l : List Hit) : List Hit :=
  l.foldl (fun acc h => insertSorted h acc) []

/-- `semantic_search` (the tool surface calls it `hybrid_search`): fuse the
name channel over the AST index with the given semantic scores, rank by
rounded score descending, truncate to `top_k`. -/
def semantic_search (idx : AstIndex) (semanticMap : List (String × ℚ))
    (query : String) (top_k : Nat) : List Hit :=
  (sortDesc (finalHits idx semanticMap (tokenize_query query))).take top_k

/-! ## Cosine similarity (`cosine_similarity` in `src/search.py`), over ℝ -/

/-- The `dot` accumulator: the sum of pairwise products over the zipped
prefix of the two vectors. -/
def dotL (a b : List ℝ) : ℝ :=
  ((a.zip b).map (fun p => p.1 * p.2)).sum

/-- The `na` accumulator: the sum of squares of the first components. -/
def naL (a b : List ℝ) : ℝ :=
  ((a.zip b).map (fun p => p.1 * p.1)).sum

/-- The `nb` accumulator: the sum of squares of the second components. -/
def nbL (a b : List ℝ) : ℝ :=
  ((a.zip b).map (fun p => p.2 * p.2)).sum

/-- `cosine_similarity`: 0 when either accumulated norm is zero, else the
dot product over the square root of the product of the squared norms. -/
noncomputable def cosine_similarity (a b : List ℝ) : ℝ :=
  if naL a b = 0 ∨ nbL a b = 0 then 0
  else dotL a b / Real.sqrt (naL a b * nbL a b)

/-! ## Specification-side definitions (written from the claims' words, to be
compared with the source-side functions above) -/

/-- The claims' "parses as a decimal number", stated independently of the
source's `replace(".", "", 1).isdigit()`: every character is a digit or a
dot, at most one dot, at least one digit. -/
def isDecimalLiteral (s : String) : Bool :=
  s.toList.all (fun c => c.isDigit || c = '.')
    && (s.toList.count '.' == 0 || s.toList.count '.' == 1)
    && s.toList.any Char.isDigit

/-- Claim C5's case analysis of type inference, written from the spec: the
binding of an already-bound name; else "int" for all-digit tokens; else
"double" for decimal-number tokens; else "bool" for the two boolean
literals; else the string-literal type. -/
def inferSpec (arg : String) (ctx : DSLContext) : Option String :=
  match lookupVar ctx.vars arg with
  | some t => t
  | none =>
    if !arg.toList.isEmpty && arg.toList.all Char.isDigit then some "int"
    else if isDecimalLiteral arg then some "double"
    else if arg = "true" || arg = "false" then some "bool"
    else some "std::string"

/-- Claim C4's per-constructor acceptance test, written from the spec: the
parameter count equals the argument count and every declared parameter type
exactly equals the inferred argument type. -/
def ctorAccepts (ctor : MethodSym) (args : List String) (ctx : DSLContext) : Bool :=
  ctor.params.length == args.length
    && (ctor.params.zip args).all
      (fun pa => infer_arg_type pa.2 ctx == some pa.1.type)

/-! ## Concrete fixtures for witnesses and failing-input evaluations -/

/-- A class with a zero-argument constructor and one declared field. -/
def boxClass : ClassRec :=
  { kind := "class_decl", name := "Box", fqn := "lib::Box",
    methods := [{ kind := "constructor", name := "Box", fqn := "lib::Box::Box",
                  params := [], return_type := Option.none }],
    fields := [{ name := "size", type := "int" }] }

def astBox : SymTable := [("lib::Box", .cls boxClass)]

/-- A context in which `box` is bound to the class type `lib::Box`. -/
def ctxBox : DSLContext := ⟨astBox, [("box", some "lib::Box")]⟩

/-- A plan whose first step succeeds and whose second step is a field read
that passes all three of its checks. -/
def bugPlan : TestPlan :=
  ⟨"get crash", [.create ⟨"box", "lib::Box", []⟩, .get ⟨"box", "size", "r"⟩]⟩

/-- The one-string-constructor class of the spec's `lib::Fruit` example. -/
def fruitCtor : MethodSym :=
  { kind := "constructor", name := "Fruit", fqn := "lib::Fruit::Fruit",
    params := [{ name := "name", type := "std::string" }],
    return_type := Option.none }

def fruitClass : ClassRec :=
  { kind := "class_decl", name := "Fruit", fqn := "lib::Fruit",
    methods := [fruitCtor], fields := [] }

def ctxFruit : DSLContext := ⟨[("lib::Fruit", .cls fruitClass)], []⟩

def fruitStep : CreateStep := ⟨"f", "lib::Fruit", ["apple"]⟩

/-! ## Claim theorems -/

/-- Claim C1 (code bug). For a `Get` step whose target `box` is bound to the
class type `lib::Box`, which declares the field `size`, the claim says
validation succeeds and the variable → type environment gains
`r ↦ int`; the code instead reaches `ctx.values[step.result] = None`,
an attribute the context does not declare, so it raises `AttributeError`
and the environment is left unchanged, with `r` unbound. -/
theorem c1_get_success_path_crashes :
    (lookupVar ctxBox.vars "box" = some (some "lib::Box")
      ∧ get_class ctxBox.ast "lib::Box" = some (.cls boxClass)
      ∧ boxClass.fields = [⟨"size", "int"⟩])
    ∧ validate_get ⟨"box", "size", "r"⟩ ctxBox
        = (some (VErr.attrError "values"), ctxBox)
    ∧ lookupVar ctxBox.vars "r" = Option.none := by
  decide

/-- Claim C6 (code bug). The validator does process steps in order and stop
at the first failure, but not every validate-time failure is surfaced
annotated with `(step_index, op_name)`: on `bugPlan` the first step
succeeds and the second (a field read passing all its checks) raises the
`AttributeError` of the `values` slip, which `validate_plan` does not catch
— the surfaced error is the bare attribute error, with no step index and no
op name. -/
theorem c6_attribute_error_escapes_unannotated :
    (validate_step (.create ⟨"box", "lib::Box", []⟩) ⟨astBox, []⟩).1 = Option.none
    ∧ validate_plan bugPlan astBox = some (VErr.attrError "values") := by
  decide

/-- Claim C7 (code bug). An unrecognized op such as "destroy" does fail with
the structured `UnknownOperation` validation error, but a `create` step
lacking its required "type" key fails with a generic Python `KeyError`
raised by the bare `kw["type"]` subscript, not with a structured
`MissingField` error of the DSL error type. -/
theorem c7_missing_key_is_generic_keyerror :
    parse_step { op := some "destroy" }
        = .error (VErr.dslError "Unknown op 'destroy'")
    ∧ parse_step { op := some "create", id := some "f" }
        = .error (VErr.keyError "type") := by
  decide

/-- Claim C2 (confirmed). For every symbol table and FQN: `get_class`
returns an indexed symbol exactly when that symbol is the table's entry for
the FQN and its kind is the class/struct kind (the data model's kind
"type"), so symbols of every other kind give `none`; and `get_constructors`
fails with the `UnknownType` validation error exactly when the FQN is not
indexed with a class/struct kind. -/
theorem c2_get_class_exactly_type_kind :
    ∀ (symbols : SymTable) (fqn : String),
      (∀ s : SymRec, get_class symbols fqn = some s ↔
        (lookupVar symbols fqn = some s ∧ isTypeKind s.kind = true))
      ∧ (get_constructors symbols fqn
            = .error (.dslError ("Unknown type '" ++ fqn ++ "'"))
          ↔ ¬ ∃ s : SymRec, lookupVar symbols fqn = some s
              ∧ isTypeKind s.kind = true) := by
  intro symbols fqn
  cases h : lookupVar symbols fqn with
  | none =>
    constructor
    · intro s
      simp [get_class, h]
    · simp only [get_constructors, get_class, h]
      simp [h]
  | some s0 =>
    by_cases hk : isTypeKind s0.kind = true
    · constructor
      · intro s
        simp only [get_class, h, hk, if_pos]
        constructor
        · rintro ⟨rfl⟩
          exact ⟨rfl, hk⟩
        · rintro ⟨⟨rfl⟩, _⟩
          rfl
      · simp only [get_constructors, get_class, h, hk, if_pos]
        constructor
        · intro habs
          cases hm : s0.methodsKey with
          | none => simp [hm] at habs
          | some ms => simp [hm] at habs
        · intro habs
          exact absurd ⟨s0, rfl, hk⟩ habs
    · constructor
      · intro s
        simp only [get_class, h, hk, if_neg]
        constructor
        · intro habs
          exact absurd habs (by simp)
        · rintro ⟨⟨rfl⟩, hks⟩
          exact absurd hks hk
      · simp only [get_constructors, get_class, h, hk, if_neg]
        constructor
        · rintro - ⟨s, hs, hks⟩
          cases hs
          exact hk hks
        · intro _
          rfl

/-- A list of digits contains no dot, and conversely: all-digit equals
all-digit-or-dot with a zero dot count. -/
lemma all_digit_eq_dod_no_dot (t : List Char) :
    t.all Char.isDigit
      = (t.all (fun c => c.isDigit || c = '.') && (t.count '.' == 0)) := by
  induction t with
  | nil => rfl
  | cons c t ih =>
    by_cases hc : c = '.'
    · subst hc
      simp [List.count_cons]
    · have hcd : ('.' == c) = false := by
        simp [BEq.beq]
        exact fun habs => hc habs.symm
      simp only [List.all_cons, List.count_cons, hcd, ih]
      cases hdig : c.isDigit <;> simp [hc, hdig]

/-- After removing the first dot, all characters are digits exactly when the
original characters are digits-or-dots with at most one dot. -/
lemma removeFirst_all_digit (t : List Char) :
    (removeFirst '.' t).all Char.isDigit
      = (t.all (fun c => c.isDigit || c = '.')
          && (t.count '.' == 0 || t.count '.' == 1)) := by
  induction t with
  | nil => rfl
  | cons c t ih =>
    by_cases hc : c = '.'
    · subst hc
      simp only [removeFirst, if_pos rfl, List.all_cons, List.count_cons]
      rw [all_digit_eq_dod_no_dot]
      simp
    · have hcd : ('.' == c) = false := by
        simp [BEq.beq]
        exact fun habs => hc habs.symm
      simp only [removeFirst, if_neg (fun habs => hc habs), List.all_cons,
        List.count_cons, ih]
      cases hdig : c.isDigit <;> simp [hc, hdig, hcd]

/-- Python `all p && any p` over one list equals `all p` with nonemptiness. -/
lemma all_any_eq_all_nonempty (p : Char → Bool) (t : List Char) :
    (!t.isEmpty && t.all p) = (t.all p && t.any p) := by
  cases t with
  | nil => rfl
  | cons c t =>
    simp only [List.isEmpty_cons, List.all_cons, List.any_cons]
    cases hp : p c <;> simp [hp]

/-- The source's decimal test — nonempty and all digits after the first dot
is removed — equals the spec-side `isDecimalLiteral` test. -/
lemma pyIsdigit_removeFirst_eq_isDecimal (l : List Char) :
    pyIsdigit (String.mk (removeFirst '.' l)) = isDecimalLiteral (String.mk l) := by
  show (!(removeFirst '.' l).isEmpty && (removeFirst '.' l).all Char.isDigit)
      = ((l.all fun c => c.isDigit || c = '.')
          && (l.count '.' == 0 || l.count '.' == 1) && l.any Char.isDigit)
  induction l with
  | nil => rfl
  | cons c t ih =>
    by_cases hc : c = '.'
    · subst hc
      have hrf : removeFirst '.' ('.' :: t) = t := by simp [removeFirst]
      rw [hrf, all_any_eq_all_nonempty Char.isDigit t, all_digit_eq_dod_no_dot]
      simp only [List.all_cons, List.any_cons, List.count_cons]
      simp [Bool.and_assoc, Bool.and_comm, Bool.and_left_comm]
    · have hne : ¬((c :: removeFirst '.' t).isEmpty = true) := by simp
      have hcd : ('.' == c) = false := by
        simp [BEq.beq]
        exact fun habs => hc habs.symm
      simp only [removeFirst, if_neg (fun habs => hc habs), List.all_cons,
        List.any_cons, List.count_cons, List.isEmpty_cons]
      rw [show (!false) = true from rfl, Bool.true_and]
      rw [removeFirst_all_digit t]
      cases hdig : c.isDigit <;> simp [hc, hdig, hcd]

/-- Claim C5 (confirmed). Type inference agrees everywhere with the spec's
case analysis `inferSpec` — bound variable, all-digit "int", decimal
"double", boolean literal "bool", else the string-literal type — and in
particular is total: it returns a type for every raw argument token and
never fails. -/
theorem c5_infer_arg_type_eq_spec :
    ∀ (arg : String) (ctx : DSLContext),
      infer_arg_type arg ctx = inferSpec arg ctx := by
  intro arg ctx
  unfold infer_arg_type inferSpec
  cases lookupVar ctx.vars arg with
  | some t => rfl
  | none =>
    simp only []
    rw [pyIsdigit_removeFirst_eq_isDecimal arg.toList]
    have h1 : pyIsdigit arg = (!arg.toList.isEmpty && arg.toList.all Char.isDigit) := rfl
    have h2 : String.mk arg.toList = arg := rfl
    rw [h1, h2]

/-- The argument loop succeeds exactly when every zipped (parameter,
argument) pair passes the exact-type compatibility test. -/
lemma check_args_loop_ok_iff (ctx : DSLContext) (whr : String) :
    ∀ (l : List (ParamRec × String)) (i : Nat),
      check_args_loop ctx whr l i = .ok ()
        ↔ l.all (fun pa => infer_arg_type pa.2 ctx == some pa.1.type) = true := by
  intro l
  induction l with
  | nil => intro i; simp [check_args_loop]
  | cons pa rest ih =>
    intro i
    obtain ⟨p, a⟩ := pa
    simp only [check_args_loop, List.all_cons]
    by_cases hc : is_type_compatible (infer_arg_type a ctx) p.type = true
    · rw [if_pos hc]
      rw [ih (i + 1)]
      simp only [is_type_compatible] at hc
      simp [hc]
    · rw [if_neg hc]
      simp only [is_type_compatible] at hc
      simp [hc]

/-- `check_args` succeeds exactly when the arity matches and every declared
parameter type equals the inferred argument type. -/
lemma check_args_ok_iff (ps : List ParamRec) (args : List String)
    (ctx : DSLContext) (whr : String) :
    check_args ps args ctx whr = .ok ()
      ↔ (ps.length == args.length
          && (ps.zip args).all
            (fun pa => infer_arg_type pa.2 ctx == some pa.1.type)) = true := by
  unfold check_args
  by_cases hl : ps.length = args.length
  · rw [if_neg (by simp [hl])]
    rw [check_args_loop_ok_iff]
    simp [hl]
  · rw [if_pos hl]
    simp [hl]

/-- An `Except VErr Unit` result that is not a success is a failure, so the
acceptance test is decidable from the result alone. -/
lemma check_args_accepts (ctor : MethodSym) (step : CreateStep)
    (ctx : DSLContext) :
    ctorAccepts ctor step.args ctx = true
      ↔ check_args ctor.params step.args ctx ("constructor " ++ step.type) = .ok () := by
  rw [check_args_ok_iff]
  rfl

/-- Claim C4 (confirmed). For every `Create` step whose type resolves to a
constructor list (an indexed class type), `validate_create` accepts the
first constructor, in index order, whose arity and parameter types exactly
match the inferred argument types — binding `id ↦ type` — and fails with
`NoMatchingConstructor` when no constructor matches. -/
theorem c4_create_first_matching_ctor (step : CreateStep) (ctx : DSLContext)
    (ctors : List MethodSym)
    (h : get_constructors ctx.ast step.type = .ok ctors) :
    validate_create step ctx =
      match ctors.find? (fun ctor => ctorAccepts ctor step.args ctx) with
      | some _ => (Option.none, setVar ctx step.id (some step.type))
      | none =>
        (some (.dslError ("No matching constructor for '" ++ step.type ++ "'")),
          ctx) := by
  unfold validate_create
  rw [h]
  clear h
  induction ctors with
  | nil => rfl
  | cons ctor rest ih =>
    simp only [try_ctors, List.find?]
    by_cases hacc : ctorAccepts ctor step.args ctx = true
    · rw [hacc]
      rw [(check_args_accepts ctor step ctx).mp hacc]
    · rw [Bool.not_eq_true] at hacc
      rw [hacc]
      cases hres : check_args ctor.params step.args ctx ("constructor " ++ step.type) with
      | ok u =>
        cases u
        exact absurd ((check_args_accepts ctor step ctx).mpr hres)
          (by rw [hacc]; exact Bool.false_ne_true)
      | error e => exact ih

/-- Witness for C4: the spec's own example — `Create{id: f, type: lib::Fruit,
args: [apple]}` against the one-string-constructor class — succeeds. -/
theorem c4_witness : (validate_create fruitStep ctxFruit).1 = Option.none := by
  have h := c4_create_first_matching_ctor fruitStep ctxFruit [fruitCtor] (by decide)
  rw [h]
  decide

/-- Overwriting the entry of a present key leaves every other lookup alone. -/
lemma lookupVar_map_replace_ne {α : Type} (tl : List (String × α))
    (k x : String) (v : α) (hxk : x ≠ k) :
    lookupVar (tl.map (fun p => if p.1 = k then (k, v) else p)) x
      = lookupVar tl x := by
  induction tl with
  | nil => rfl
  | cons hd tl ih =>
    obtain ⟨a, b⟩ := hd
    rw [List.map_cons]
    by_cases hak : a = k
    · rw [show (if (a, b).1 = k then (k, v) else (a, b)) = (k, v) from by simp [hak]]
      show (if x = k then some v else lookupVar (tl.map _) x) = lookupVar ((a, b) :: tl) x
      rw [if_neg hxk, ih]
      show lookupVar tl x = if x = a then some b else lookupVar tl x
      rw [if_neg (by rw [hak]; exact hxk)]
    · rw [show (if (a, b).1 = k then (k, v) else (a, b)) = (a, b) from by simp [hak]]
      show (if x = a then some b else lookupVar (tl.map _) x)
        = if x = a then some b else lookupVar tl x
      by_cases hxa : x = a
      · rw [if_pos hxa, if_pos hxa]
      · rw [if_neg hxa, if_neg hxa, ih]

/-- Overwriting the entry of a present key makes its lookup the new value. -/
lemma lookupVar_map_replace_eq {α : Type} (tl : List (String × α))
    (k : String) (v : α) (hk : (lookupVar tl k).isSome = true) :
    lookupVar (tl.map (fun p => if p.1 = k then (k, v) else p)) k = some v := by
  induction tl with
  | nil => simp [lookupVar] at hk
  | cons hd tl ih =>
    obtain ⟨a, b⟩ := hd
    rw [List.map_cons]
    by_cases hak : a = k
    · rw [show (if (a, b).1 = k then (k, v) else (a, b)) = (k, v) from by simp [hak]]
      show (if k = k then some v else lookupVar (tl.map _) k) = some v
      rw [if_pos rfl]
    · rw [show (if (a, b).1 = k then (k, v) else (a, b)) = (a, b) from by simp [hak]]
      show (if k = a then some b else lookupVar (tl.map _) k) = some v
      have hka : k ≠ a := fun habs => hak habs.symm
      rw [if_neg hka]
      apply ih
      have hstep : lookupVar ((a, b) :: tl) k = lookupVar tl k := by
        show (if k = a then some b else lookupVar tl k) = lookupVar tl k
        rw [if_neg hka]
      rw [hstep] at hk
      exact hk

/-- Looking up after appending one fresh pair at the back. -/
lemma lookupVar_append_single {α : Type} (m : List (String × α))
    (k x : String) (v : α) :
    lookupVar (m ++ [(k, v)]) x
      = match lookupVar m x with
        | some b => some b
        | none => if x = k then some v else Option.none := by
  induction m with
  | nil => rfl
  | cons hd tl ih =>
    obtain ⟨a, b⟩ := hd
    rw [List.cons_append]
    show (if x = a then some b else lookupVar (tl ++ [(k, v)]) x)
      = match (if x = a then some b else lookupVar tl x) with
        | some b => some b
        | none => if x = k then some v else Option.none
    by_cases hxa : x = a
    · rw [if_pos hxa, if_pos hxa]
    · rw [if_neg hxa, if_neg hxa, ih]

/-- `dictInsert` behaves as the dict update: the inserted key now maps to
the new value, every other key is untouched. -/
lemma lookupVar_dictInsert {α : Type} (m : List (String × α)) (k : String)
    (v : α) (x : String) :
    lookupVar (dictInsert m k v) x = if x = k then some v else lookupVar m x := by
  unfold dictInsert
  by_cases hk : (lookupVar m k).isSome = true
  · rw [if_pos hk]
    by_cases hxk : x = k
    · subst hxk
      rw [lookupVar_map_replace_eq m x v hk, if_pos rfl]
    · rw [lookupVar_map_replace_ne m k x v hxk, if_neg hxk]
  · rw [if_neg hk, lookupVar_append_single]
    have hnone : lookupVar m k = Option.none := by
      cases hmk : lookupVar m k with
      | none => rfl
      | some b => rw [hmk] at hk; simp at hk
    by_cases hxk : x = k
    · subst hxk
      rw [hnone, if_pos rfl]
    · cases hmx : lookupVar m x with
      | some b => simp only [if_neg hxk]
      | none => rfl

/-- The constructor loop either leaves the context alone or binds exactly
`id ↦ type`. -/
lemma try_ctors_shape (s : CreateStep) (ctx : DSLContext) :
    ∀ ctors : List MethodSym,
      (try_ctors s ctx ctors).2 = ctx
        ∨ try_ctors s ctx ctors = (Option.none, setVar ctx s.id (some s.type)) := by
  intro ctors
  induction ctors with
  | nil => exact Or.inl rfl
  | cons c rest ih =>
    simp only [try_ctors]
    cases check_args c.params s.args ctx ("constructor " ++ s.type) with
    | ok u => exact Or.inr rfl
    | error e => exact ih

/-- A field-read step never changes the context (its success path raises
before it could bind anything). -/
lemma validate_get_ctx (s : GetStep) (ctx : DSLContext) :
    (validate_get s ctx).2 = ctx := by
  unfold validate_get
  split
  · rfl
  · split
    · rfl
    · split <;> rfl

/-- An assert step never changes the context. -/
lemma validate_assert_ctx (s : AssertStep) (ctx : DSLContext) :
    (validate_assert s ctx).2 = ctx := by
  unfold validate_assert
  split <;> rfl

/-- An expect-fail step never changes the context. -/
lemma validate_expect_fail_ctx (s : ExpectFailStep) (ctx : DSLContext) :
    (validate_expect_fail s ctx).2 = ctx := by
  unfold validate_expect_fail
  split <;> rfl

/-- Every step validator either leaves the context alone or performs one
`setVar` on it. -/
lemma validate_step_shape (step : Step) (ctx : DSLContext) :
    (validate_step step ctx).2 = ctx
      ∨ ∃ k val, validate_step step ctx = (Option.none, setVar ctx k val) := by
  cases step with
  | create s =>
    show (validate_create s ctx).2 = ctx
      ∨ ∃ k val, validate_create s ctx = (Option.none, setVar ctx k val)
    unfold validate_create
    cases get_constructors ctx.ast s.type with
    | error e => exact Or.inl rfl
    | ok ctors =>
      rcases try_ctors_shape s ctx ctors with h | h
      · exact Or.inl h
      · exact Or.inr ⟨s.id, some s.type, h⟩
  | call s =>
    show (validate_call s ctx).2 = ctx
      ∨ ∃ k val, validate_call s ctx = (Option.none, setVar ctx k val)
    unfold validate_call
    repeat' first
      | exact Or.inl rfl
      | exact Or.inr ⟨_, _, rfl⟩
      | split
  | get s => exact Or.inl (validate_get_ctx s ctx)
  | assertS s => exact Or.inl (validate_assert_ctx s ctx)
  | expectFail s => exact Or.inl (validate_expect_fail_ctx s ctx)

/-- Claim C9 (confirmed). The set of bound variable identifiers grows
monotonically: validating any step never removes a binding — every
identifier bound before the step is still bound after it, whether the step
succeeds or fails. (`validate_plan` starts the run from the empty
environment by construction.) -/
theorem c9_env_domain_monotone (step : Step) (ctx : DSLContext) (v : String)
    (h : (lookupVar ctx.vars v).isSome = true) :
    (lookupVar ((validate_step step ctx).2).vars v).isSome = true := by
  rcases validate_step_shape step ctx with hs | ⟨k, val, hs⟩
  · rw [hs]
    exact h
  · rw [hs]
    show (lookupVar (dictInsert ctx.vars k val) v).isSome = true
    rw [lookupVar_dictInsert]
    by_cases hvk : v = k
    · rw [if_pos hvk]
      rfl
    · rw [if_neg hvk]
      exact h

/-- Witness for C9: a bound variable survives a validated step. -/
theorem c9_witness :
    (lookupVar ((validate_step (.expectFail ⟨0⟩)
        ⟨[], [("x", some "int")]⟩).2).vars "x").isSome = true :=
  c9_env_domain_monotone (.expectFail ⟨0⟩) ⟨[], [("x", some "int")]⟩ "x" (by decide)

/-- Claim C10 (confirmed). A step whose validation fails leaves the type
environment exactly as it was: no failing `Create`, `Call`, `Get`, `Assert`
or `ExpectFail` step adds (or changes) any binding, so after a failed run
the environment holds exactly the bindings of the steps that succeeded
before the failing one. -/
theorem c10_failing_step_preserves_env (step : Step) (ctx : DSLContext)
    (e : VErr) (h : (validate_step step ctx).1 = some e) :
    (validate_step step ctx).2 = ctx := by
  rcases validate_step_shape step ctx with hs | ⟨k, val, hs⟩
  · exact hs
  · rw [hs] at h
    exact absurd h (by simp)

/-- Witness for C10: a `Call` on an unbound variable fails and leaves the
environment unchanged. -/
theorem c10_witness :
    (validate_step (.call ⟨"x", "m", [], Option.none⟩) ⟨[], []⟩).2
      = (⟨[], []⟩ : DSLContext) :=
  c10_failing_step_preserves_env (.call ⟨"x", "m", [], Option.none⟩) ⟨[], []⟩
    (.dslError "Unknown variable 'x'") (by decide)

/-- Membership through one insertion step of the descending sort. -/
lemma mem_insertSorted (x h : Hit) (l : List Hit) :
    x ∈ insertSorted h l ↔ x = h ∨ x ∈ l := by
  induction l with
  | nil => simp [insertSorted]
  | cons y t ih =>
    unfold insertSorted
    by_cases hc : y.score < h.score
    · rw [if_pos hc]
      simp [List.mem_cons]
    · rw [if_neg hc]
      simp only [List.mem_cons, ih]
      tauto

/-- Inserting into a list sorted by non-increasing score keeps it sorted. -/
lemma pairwise_insertSorted (h : Hit) (l : List Hit)
    (hp : l.Pairwise (fun a b => b.score ≤ a.score)) :
    (insertSorted h l).Pairwise (fun a b => b.score ≤ a.score) := by
  induction l with
  | nil => simp [insertSorted]
  | cons y t ih =>
    rw [List.pairwise_cons] at hp
    obtain ⟨hy, ht⟩ := hp
    unfold insertSorted
    by_cases hc : y.score < h.score
    · rw [if_pos hc, List.pairwise_cons]
      constructor
      · intro b hb
        rcases List.mem_cons.mp hb with rfl | hb
        · exact le_of_lt hc
        · exact le_trans (hy b hb) (le_of_lt hc)
      · rw [List.pairwise_cons]
        exact ⟨hy, ht⟩
    · rw [if_neg hc, List.pairwise_cons]
      constructor
      · intro b hb
        rcases (mem_insertSorted b h t).mp hb with rfl | hb
        · exact le_of_not_lt hc
        · exact hy b hb
      · exact ih ht

lemma mem_sortDesc_aux (l : List Hit) :
    ∀ (acc : List Hit) (x : Hit),
      x ∈ l.foldl (fun a h => insertSorted h a) acc ↔ x ∈ acc ∨ x ∈ l := by
  induction l with
  | nil => simp
  | cons y t ih =>
    intro acc x
    simp only [List.foldl_cons]
    rw [ih, mem_insertSorted]
    simp only [List.mem_cons]
    tauto

/-- The descending sort is a permutation at the level of membership. -/
lemma mem_sortDesc (x : Hit) (l : List Hit) : x ∈ sortDesc l ↔ x ∈ l := by
  unfold sortDesc
  rw [mem_sortDesc_aux]
  simp

lemma pairwise_sortDesc_aux (l : List Hit) :
    ∀ acc : List Hit, acc.Pairwise (fun a b => b.score ≤ a.score) →
      (l.foldl (fun a h => insertSorted h a) acc).Pairwise
        (fun a b => b.score ≤ a.score) := by
  induction l with
  | nil => intro acc hacc; simpa using hacc
  | cons y t ih =>
    intro acc hacc
    simp only [List.foldl_cons]
    exact ih _ (pairwise_insertSorted y acc hacc)

/-- The descending sort sorts: scores are non-increasing along the output. -/
lemma pairwise_sortDesc (l : List Hit) :
    (sortDesc l).Pairwise (fun a b => b.score ≤ a.score) :=
  pairwise_sortDesc_aux l [] (by simp)

/-- What a kept fusion record says about its emitted hit. -/
lemma fuseRecord_eq_some (r : RRec) (h : Hit) (hf : fuseRecord r = some h) :
    (7 / 10 : ℚ) * r.semantic + (3 / 10 : ℚ) * r.name ≠ 0
      ∧ h.score = round3 ((7 / 10 : ℚ) * r.semantic + (3 / 10 : ℚ) * r.name)
      ∧ h.fqn = r.fqn ∧ h.kind = r.kind
      ∧ h.sources = (if 0 < r.semantic then ["semantic"] else [])
          ++ (if 0 < r.name then ["name"] else []) := by
  simp only [fuseRecord] at hf
  by_cases hz : (7 / 10 : ℚ) * r.semantic + (3 / 10 : ℚ) * r.name = 0
  · rw [if_pos hz] at hf
    exact absurd hf (by simp)
  · rw [if_neg hz] at hf
    cases hf
    exact ⟨hz, rfl, rfl, rfl, rfl⟩

/-- Claim C3 (corrected: the amended statement). For every AST index,
semantic-score map, query and `top_k`: the hybrid search returns at most
`top_k` hits, sorted by non-increasing (stored) score; every hit comes from
a fusion record whose exact fused score `0.7 × semantic + 0.3 × lexical`
(a missing channel contributing 0) is non-zero, the hit's `score` is that
fused score rounded to three decimal places, and `sources` lists exactly
the channels whose score was strictly positive. -/
theorem c3_fusion_rounded_scores (idx : AstIndex)
    (semanticMap : List (String × ℚ)) (query : String) (top_k : Nat) :
    (semantic_search idx semanticMap query top_k).length ≤ top_k
    ∧ (semantic_search idx semanticMap query top_k).Pairwise
        (fun a b => b.score ≤ a.score)
    ∧ ∀ h ∈ semantic_search idx semanticMap query top_k, ∃ r : RRec,
        (∃ key, (key, r) ∈ fusionResults idx semanticMap (tokenize_query query))
        ∧ (7 / 10 : ℚ) * r.semantic + (3 / 10 : ℚ) * r.name ≠ 0
        ∧ h.score = round3 ((7 / 10 : ℚ) * r.semantic + (3 / 10 : ℚ) * r.name)
        ∧ h.fqn = r.fqn ∧ h.kind = r.kind
        ∧ h.sources = (if 0 < r.semantic then ["semantic"] else [])
            ++ (if 0 < r.name then ["name"] else []) := by
  unfold semantic_search
  refine ⟨List.length_take_le _ _, ?_, ?_⟩
  · exact List.Pairwise.sublist (List.take_sublist _ _) (pairwise_sortDesc _)
  · intro h hmem
    have h1 : h ∈ sortDesc (finalHits idx semanticMap (tokenize_query query)) :=
      List.mem_of_mem_take hmem
    have h2 : h ∈ finalHits idx semanticMap (tokenize_query query) :=
      (mem_sortDesc h _).mp h1
    unfold finalHits at h2
    rw [List.mem_filterMap] at h2
    obtain ⟨p, hp, hf⟩ := h2
    obtain ⟨hz, hs, hfq, hk, hsrc⟩ := fuseRecord_eq_some p.2 h hf
    exact ⟨p.2, ⟨p.1, hp⟩, hz, hs, hfq, hk, hsrc⟩

/-- Counterexample to claim C3 as stated, at three concrete inputs (empty
AST index, so the lexical channel contributes 0 throughout).
Input 1: a semantic score of 0.1234 yields a hit whose stored score is the
*rounded* 0.086, not the exact fused 0.7 × 0.1234 = 0.08638.
Input 2: a negative semantic score of -0.5 yields a hit (fused -0.35 ≠ 0)
whose `sources` is empty although its semantic score is non-zero — the code
tests `> 0`, not `≠ 0`.
Input 3: fused scores 0.0861 and 0.08638 both round to 0.086, and the hit
with the strictly smaller exact fused score is returned first, so the
result is not sorted by non-increasing exact fused score. -/
theorem c3_counterexample_exact_fusion :
    ((semantic_search [] [("a", 617 / 5000)] "q" 5).map Hit.score = [43 / 500]
      ∧ (43 / 500 : ℚ) ≠ (7 / 10) * (617 / 5000) + (3 / 10) * 0)
    ∧ ((semantic_search [] [("a", -1 / 2)] "q" 5).map Hit.sources = [[]]
      ∧ (-1 / 2 : ℚ) ≠ 0)
    ∧ ((semantic_search [] [("a", 123 / 1000), ("b", 1234 / 10000)] "q" 5).map
          Hit.fqn = ["a", "b"]
      ∧ (7 / 10 : ℚ) * (123 / 1000) + (3 / 10) * 0
          < (7 / 10) * (1234 / 10000) + (3 / 10) * 0) := by
  refine ⟨⟨?_, by norm_num⟩, ⟨?_, by norm_num⟩, ⟨?_, by norm_num⟩⟩
  · norm_num [semantic_search, finalHits, fusionResults, nameChannel, addSemScore,
      lookupVar, fuseRecord, round3, roundHalfEven, sortDesc, insertSorted,
      List.filterMap_cons, List.take_succ_cons, List.take_nil]
    all_goals simp only [Int.fract]
    all_goals norm_num
  · norm_num [semantic_search, finalHits, fusionResults, nameChannel, addSemScore,
      lookupVar, fuseRecord, round3, roundHalfEven, sortDesc, insertSorted,
      List.filterMap_cons, List.take_succ_cons, List.take_nil]
  · norm_num [semantic_search, finalHits, fusionResults, nameChannel, addSemScore,
      lookupVar, dictInsert, fuseRecord, round3, roundHalfEven, sortDesc,
      insertSorted, List.filterMap_cons, List.take_succ_cons, List.take_nil,
      show ¬("b" = "a") from by decide]
    all_goals simp only [Int.fract]
    all_goals norm_num

lemma zip_self (a : List ℝ) : a.zip a = a.map (fun x => (x, x)) := by
  induction a with
  | nil => rfl
  | cons x t ih => simp [List.zip_cons_cons, ih]

lemma zip_swap_eq (a : List ℝ) : ∀ b : List ℝ, b.zip a = (a.zip b).map Prod.swap := by
  induction a with
  | nil => intro b; cases b <;> rfl
  | cons x t ih =>
    intro b
    cases b with
    | nil => rfl
    | cons y u =>
      rw [List.zip_cons_cons, List.zip_cons_cons, List.map_cons, ih u]
      rfl

lemma sum_map_mul_swap (l : List (ℝ × ℝ)) :
    ((l.map (fun p => p.2 * p.1)).sum : ℝ) = (l.map (fun p => p.1 * p.2)).sum := by
  induction l with
  | nil => rfl
  | cons p t ih => simp [ih, mul_comm]

lemma dotL_comm (a b : List ℝ) : dotL b a = dotL a b := by
  rw [dotL, dotL, zip_swap_eq a b, List.map_map]
  exact sum_map_mul_swap (a.zip b)

lemma naL_swap (a b : List ℝ) : naL b a = nbL a b := by
  rw [naL, nbL, zip_swap_eq a b, List.map_map]
  rfl

lemma nbL_swap (a b : List ℝ) : nbL b a = naL a b := by
  rw [naL, nbL, zip_swap_eq a b, List.map_map]
  rfl

lemma naL_self (a : List ℝ) : naL a a = ((a.map fun x => x * x)).sum := by
  rw [naL, zip_self, List.map_map]
  rfl

lemma nbL_self (a : List ℝ) : nbL a a = ((a.map fun x => x * x)).sum := by
  rw [nbL, zip_self, List.map_map]
  rfl

lemma dotL_self (a : List ℝ) : dotL a a = ((a.map fun x => x * x)).sum := by
  rw [dotL, zip_self, List.map_map]
  rfl

/-- Claim C8 (confirmed, over the real-number reading of the float
arithmetic). Cosine similarity is 1 on every pair of identical vectors with
a non-zero component, 0 whenever either vector is all-zero (the zero-norm
guard, so no division by zero occurs), and symmetric in its arguments. -/
theorem c8_cosine_similarity_properties :
    (∀ a : List ℝ, (∃ x ∈ a, x ≠ 0) → cosine_similarity a a = 1)
    ∧ (∀ a b : List ℝ,
        ((∀ x ∈ a, x = 0) ∨ (∀ x ∈ b, x = 0)) → cosine_similarity a b = 0)
    ∧ (∀ a b : List ℝ, cosine_similarity a b = cosine_similarity b a) := by
  refine ⟨?_, ?_, ?_⟩
  · intro a h
    obtain ⟨x, hx, hne⟩ := h
    have hnonneg : ∀ y ∈ a.map (fun x => x * x), 0 ≤ y := by
      intro y hy
      rw [List.mem_map] at hy
      obtain ⟨z, _, rfl⟩ := hy
      exact mul_self_nonneg z
    have hpos : 0 < ((a.map fun x => x * x)).sum :=
      lt_of_lt_of_le (mul_self_pos.mpr hne)
        (List.single_le_sum hnonneg _ (List.mem_map_of_mem _ hx))
    have hS : naL a a ≠ 0 := by
      rw [naL_self]
      exact ne_of_gt hpos
    have hSn : nbL a a ≠ 0 := by
      rw [nbL_self]
      exact ne_of_gt hpos
    unfold cosine_similarity
    rw [if_neg (by simp [hS, hSn])]
    rw [dotL_self, naL_self, nbL_self,
      Real.sqrt_mul_self (le_of_lt hpos)]
    exact div_self (ne_of_gt hpos)
  · intro a b h
    unfold cosine_similarity
    rcases h with ha | hb
    · have h0 : naL a b = 0 := by
        rw [naL]
        apply List.sum_eq_zero
        intro y hy
        rw [List.mem_map] at hy
        obtain ⟨⟨p1, p2⟩, hp, rfl⟩ := hy
        rw [ha p1 (List.of_mem_zip hp).1]
        ring
      rw [if_pos (Or.inl h0)]
    · have h0 : nbL a b = 0 := by
        rw [nbL]
        apply List.sum_eq_zero
        intro y hy
        rw [List.mem_map] at hy
        obtain ⟨⟨p1, p2⟩, hp, rfl⟩ := hy
        rw [hb p2 (List.of_mem_zip hp).2]
        ring
      rw [if_pos (Or.inr h0)]
  · intro a b
    unfold cosine_similarity
    rw [dotL_comm a b, naL_swap a b, nbL_swap a b]
    exact if_congr or_comm rfl (by rw [mul_comm])
